import Mathlib

/-!
Shallow embedding of `bevy_mod_props` (files `src/props/mod.rs`,
`src/registry/ext.rs`), covering the `Value` tagged union with its
conversion/arithmetic surface, the `Props` sorted string-keyed map built on
`BTreeMap<Estr, Value>`, and the registry name/class lookup extension
methods.

Modelling conventions:
- `Estr` (an interned immutable string) is modelled as `String`; its `Ord`
  instance (byte-lexicographic in Rust) coincides with Lean's `String`
  order on the UTF-8 strings used here.
- `f32` is modelled by `F32`: either the marker `F32.nan` or an exact
  rational `F32.fin q`.  Rounding and infinities are not modelled; the
  claims below only depend on variant dispatch, on exact arithmetic at
  small representable values, and on the non-reflexivity of NaN equality,
  all of which this model captures exactly.
- `BTreeMap<Estr, Value>` is modelled as an association list kept sorted by
  key (`propsInsert` inserts at the key's sorted position, replacing an
  existing entry; `propsFind` looks a key up).  Borrowing iteration over a
  `BTreeMap` yields entries in ascending key order, which is the list
  itself.
- Methods taking `&self` in Rust (`Props::get`, `Index::index`, `iter`)
  are pure functions of the map and cannot mutate it; methods taking
  `&mut self` are modelled as state transformers returning the new map.
-/

-- Batteries marks the arithmetic on `Rat` irreducible for elaboration
-- performance; re-expose it so that `decide` can evaluate concrete
-- rational arithmetic (the kernel is unaffected by reducibility).
unseal Rat.add Rat.sub Rat.mul Rat.inv

-- ---------------------------------------------------------------------------
-- The f32 payload model

/-- Model of `f32`: NaN, or an exact finite rational value. -/
inductive F32 where
  | nan : F32
  | fin : Rat → F32
deriving DecidableEq

/-- IEEE-style equality test on the `f32` model: NaN compares unequal to
everything, including itself. -/
def F32.beq : F32 → F32 → Bool
  | .fin a, .fin b => a == b
  | _, _ => false

/-- Model of `f32` addition: exact on finite values, NaN propagates. -/
def F32.add : F32 → F32 → F32
  | .fin a, .fin b => .fin (a + b)
  | _, _ => .nan

/-- Model of `f32` subtraction: exact on finite values, NaN propagates. -/
def F32.sub : F32 → F32 → F32
  | .fin a, .fin b => .fin (a - b)
  | _, _ => .nan

/-- Model of `f32` negation. -/
def F32.neg : F32 → F32
  | .fin a => .fin (-a)
  | .nan => .nan

/-- Model of `f32` multiplication: exact on finite values, NaN propagates. -/
def F32.mul : F32 → F32 → F32
  | .fin a, .fin b => .fin (a * b)
  | _, _ => .nan

/-- Model of `f32` division: exact on finite values with a nonzero divisor;
NaN propagates and a zero divisor is collapsed to NaN (infinities are not
modelled; no claim evaluates division at a zero divisor). -/
def F32.div : F32 → F32 → F32
  | .fin a, .fin b => if b = 0 then .nan else .fin (a / b)
  | _, _ => .nan

-- ---------------------------------------------------------------------------
-- The Value type (`enum Value { Bool(bool), Num(f32), Str(Estr) }`)

/-- A boolean, number or string: `Value` from `src/props/mod.rs`. -/
inductive Value where
  | bool : Bool → Value
  | num : F32 → Value
  | str : String → Value
deriving DecidableEq

/-- `impl Default for Value`: the default variant is `Bool(false)`. -/
def Value.default : Value := .bool false

/-- Variant discriminator for the `Bool` arm. -/
def Value.isBool : Value → Bool
  | .bool _ => true
  | _ => false

/-- Variant discriminator for the `Num` arm. -/
def Value.isNum : Value → Bool
  | .num _ => true
  | _ => false

/-- Variant discriminator for the `Str` arm. -/
def Value.isStr : Value → Bool
  | .str _ => true
  | _ => false

/-- Numeric code of the active variant, used to state cross-variant facts. -/
def Value.tag : Value → Nat
  | .bool _ => 0
  | .num _ => 1
  | .str _ => 2

-- Fallible conversions: `impl From<Value> for Option<T>`.

/-- `impl From<Value> for Option<bool>`. -/
def Value.toBoolOpt : Value → Option Bool
  | .bool b => some b
  | _ => none

/-- `impl From<Value> for Option<f32>`. -/
def Value.toNumOpt : Value → Option F32
  | .num n => some n
  | _ => none

/-- `impl From<Value> for Option<Estr>` (and the `&str`/`String` forms,
which extract the same string). -/
def Value.toStrOpt : Value → Option String
  | .str s => some s
  | _ => none

-- Infallible conversions: `impl From<Value> for T`, via
-- `Option::from(value).unwrap_or_default()`.

/-- `impl From<Value> for bool`: the held boolean, or `false`. -/
def Value.toBool (v : Value) : Bool := v.toBoolOpt.getD false

/-- `impl From<Value> for f32`: the held number, or `0.0`.  (`impl
From<Value> for f64` widens the same `f32` losslessly and is therefore the
same function in this model.) -/
def Value.toNum (v : Value) : F32 := v.toNumOpt.getD (.fin 0)

/-- `impl From<Value> for Estr` (and `String`, `&str`): the held string, or
the empty string. -/
def Value.toStr (v : Value) : String := v.toStrOpt.getD ""

-- `AsMut` coercions.  `Value::as_mut::<T>` leaves a matching variant in
-- place and otherwise overwrites the value with the zero value of `T`
-- before handing out the mutable reference; these functions return the
-- value stored in the slot after that overwrite.

/-- State effect of `impl AsMut<bool> for Value`. -/
def Value.asMutBool : Value → Value
  | .bool b => .bool b
  | _ => .bool false

/-- State effect of `impl AsMut<f32> for Value`. -/
def Value.asMutNum : Value → Value
  | .num n => .num n
  | _ => .num (.fin 0)

/-- State effect of `impl AsMut<Estr> for Value`. -/
def Value.asMutStr : Value → Value
  | .str s => .str s
  | _ => .str ""

-- Equality (`PartialEq` impls).

/-- `impl PartialEq<Value> for Value`: equal only within a variant; `Num`
payloads compare by IEEE equality (NaN equals nothing). -/
def Value.beq : Value → Value → Bool
  | .bool a, .bool b => a == b
  | .num a, .num b => F32.beq a b
  | .str a, .str b => a == b
  | _, _ => false

/-- `impl PartialEq<bool> for Value`. -/
def Value.beqBool : Value → Bool → Bool
  | .bool a, b => a == b
  | _, _ => false

/-- `impl PartialEq<f32> for Value`. -/
def Value.beqNum : Value → F32 → Bool
  | .num a, b => F32.beq a b
  | _, _ => false

/-- `impl PartialEq<&str> for Value` (and the `String`/`Estr` forms). -/
def Value.beqStr : Value → String → Bool
  | .str a, b => a == b
  | _, _ => false

-- Arithmetic (`Add`/`Sub`/`Mul`/`Div` impls).

/-- `impl Add<f32> for Value`. -/
def Value.addF32 : Value → F32 → Value
  | .num l, r => .num (F32.add l r)
  | _, r => .num r

/-- `impl Add<Value> for Value`. -/
def Value.add : Value → Value → Value
  | .num l, .num r => .num (F32.add l r)
  | .num n, _ => .num n
  | _, .num n => .num n
  | _, _ => .num (.fin 0)

/-- `impl Sub<f32> for Value`. -/
def Value.subF32 : Value → F32 → Value
  | .num l, r => .num (F32.sub l r)
  | _, r => .num (F32.neg r)

/-- `impl Sub<Value> for Value`. -/
def Value.sub : Value → Value → Value
  | .num l, .num r => .num (F32.sub l r)
  | .num n, _ => .num n
  | _, .num n => .num (F32.neg n)
  | _, _ => .num (.fin 0)

/-- `impl Mul<f32> for Value`. -/
def Value.mulF32 : Value → F32 → Value
  | .num l, r => .num (F32.mul l r)
  | _, _ => .num (.fin 0)

/-- `impl Mul<Value> for Value`. -/
def Value.mul : Value → Value → Value
  | .num l, .num r => .num (F32.mul l r)
  | _, _ => .num (.fin 0)

/-- `impl Div<f32> for Value`. -/
def Value.divF32 : Value → F32 → Value
  | .num l, r => .num (F32.div l r)
  | _, _ => .num (.fin 0)

/-- `impl Div<Value> for f32`: dividing a number by a non-numeric value
leaves the number unchanged. -/
def F32.divValue : F32 → Value → Value
  | l, .num r => .num (F32.div l r)
  | l, _ => .num l

/-- `impl Div<Value> for Value`. -/
def Value.div : Value → Value → Value
  | .num l, .num r => .num (F32.div l r)
  | .num l, _ => .num l
  | _, .num _ => .num (.fin 0)
  | _, _ => .num (.fin 0)

-- ---------------------------------------------------------------------------
-- The Props map (`struct Props { properties: BTreeMap<Estr, Value> }`)

/-- Strict lexicographic order on character lists, the order `BTreeMap`
keys follow (on UTF-8 strings, byte order and codepoint order agree). -/
def keyLtChars : List Char → List Char → Bool
  | [], [] => false
  | [], _ :: _ => true
  | _ :: _, [] => false
  | a :: as, b :: bs =>
    if a < b then true
    else if b < a then false
    else keyLtChars as bs

/-- Strict lexicographic order on keys (`Ord for Estr`). -/
def keyLt (a b : String) : Bool := keyLtChars a.data b.data

/-- `BTreeMap::insert` on the sorted-association-list model: place the
entry at its sorted position, replacing an existing entry with the same
key. -/
def propsInsert (k : String) (v : Value) : List (String × Value) → List (String × Value)
  | [] => [(k, v)]
  | (k', v') :: rest =>
    if keyLt k k' then (k, v) :: (k', v') :: rest
    else if k = k' then (k, v) :: rest
    else (k', v') :: propsInsert k v rest

/-- `BTreeMap::get` on the sorted-association-list model. -/
def propsFind (k : String) : List (String × Value) → Option Value
  | [] => none
  | (k', v) :: rest => if k = k' then some v else propsFind k rest

/-- `Props`: a string-keyed property map backed by a `BTreeMap`. -/
structure Props where
  properties : List (String × Value)
deriving DecidableEq

/-- Well-formedness of the `BTreeMap` model: entries strictly ascending by
key.  Every `Props` reachable through the public API satisfies it. -/
def Props.Wf (p : Props) : Prop :=
  List.Pairwise (fun a b => keyLt a.1 b.1 = true) p.properties

instance (p : Props) : Decidable p.Wf := by
  unfold Props.Wf; infer_instance

/-- `Props::new` (`Props::default`): the empty map. -/
def Props.new : Props := ⟨[]⟩

/-- Key lookup in the underlying map. -/
def Props.lookup (p : Props) (k : String) : Option Value :=
  propsFind k p.properties

/-- `Props::set`: unconditionally inserts or overwrites. -/
def Props.set (p : Props) (k : String) (v : Value) : Props :=
  ⟨propsInsert k v p.properties⟩

/-- `Props::with` (named `withProp` since `with` is reserved in Lean):
`set`, chainable. -/
def Props.withProp (p : Props) (k : String) (v : Value) : Props :=
  p.set k v

/-- `Props::remove`. -/
def Props.remove (p : Props) (k : String) : Props :=
  ⟨p.properties.filter (fun e => !(e.1 == k))⟩

/-- `Props::clear`. -/
def Props.clear (_ : Props) : Props := ⟨[]⟩

/-- `Props::get::<bool>`: `if let Some(&value) = get { value.into() } else
{ T::default() }`. -/
def Props.getBool (p : Props) (k : String) : Bool :=
  match p.lookup k with
  | some v => v.toBool
  | none => false

/-- `Props::get::<f32>` (the `f64` form widens the same number). -/
def Props.getNum (p : Props) (k : String) : F32 :=
  match p.lookup k with
  | some v => v.toNum
  | none => .fin 0

/-- `Props::get::<Estr>` (and the `String` form). -/
def Props.getStr (p : Props) (k : String) : String :=
  match p.lookup k with
  | some v => v.toStr
  | none => ""

-- `Props::get_mut::<T>` is `self.properties.entry(name).or_default().as_mut()`:
-- `or_default` inserts `Value::default()` (that is `Bool(false)`) when the
-- key is absent, and `as_mut` then coerces a mismatched variant to the
-- zero value of `T` in place.  The functions below return the resulting
-- map; the returned `&mut T` points into the slot at `k`.

/-- State effect of `Props::get_mut::<bool>`. -/
def Props.get_mut_bool (p : Props) (k : String) : Props :=
  p.set k (Value.asMutBool ((p.lookup k).getD Value.default))

/-- State effect of `Props::get_mut::<f32>`. -/
def Props.get_mut_num (p : Props) (k : String) : Props :=
  p.set k (Value.asMutNum ((p.lookup k).getD Value.default))

/-- State effect of `Props::get_mut::<Estr>`. -/
def Props.get_mut_str (p : Props) (k : String) : Props :=
  p.set k (Value.asMutStr ((p.lookup k).getD Value.default))

/-- `impl Index for Props` (read-only): the stored value, or a reference
to the shared static `DEFAULT_VALUE` (`Bool(false)`) when the key is
absent.  Takes `&self`, so it cannot insert or mutate anything. -/
def Props.index (p : Props) (k : String) : Value :=
  (p.lookup k).getD Value.default

/-- State effect of `props[k] += x`: `IndexMut::index_mut` is
`self.get_mut::<Value>(k)` (whose `AsMut<Value>` is the identity, so only
the `or_default` insertion happens), and `AddAssign<f32>` then replaces
the referenced value with `value + x`. -/
def Props.addAssignF32 (p : Props) (k : String) (x : F32) : Props :=
  p.set k (Value.addF32 ((p.lookup k).getD Value.default) x)

/-- State effect of `props[k] -= x`, analogous to `addAssignF32`. -/
def Props.subAssignF32 (p : Props) (k : String) (x : F32) : Props :=
  p.set k (Value.subF32 ((p.lookup k).getD Value.default) x)

/-- `Props::iter`: the borrowing iterator of the underlying `BTreeMap`,
which yields entries in ascending key order; on the sorted-list model
this is the list of entries itself. -/
def Props.iter (p : Props) : List (String × Value) :=
  p.properties

-- ---------------------------------------------------------------------------
-- Registry name/class lookups (`src/registry/ext.rs`)

-- Entity handles are modelled as bare `Nat` ids; `EntityRef` carries no
-- data the claims need beyond the handle, so an entity reference is
-- modelled as the id of the (live) entity it points at.

/-- Modelled from the spec: `EntityNotFoundError { name }` is declared in
`src/registry/mod.rs`, which is not under `src/`; the spec names this the
"name not registered" error kind. -/
structure EntityNotFoundError where
  name : String
deriving DecidableEq

/-- Modelled from the spec: the `Registry` resource from
`src/registry/mod.rs` (not under `src/`) "maps unique name → one entity
handle (last-write-wins) and class tag → set of entity handles". -/
structure Registry where
  names : List (String × Nat)
  classes : List (String × List Nat)
deriving DecidableEq

/-- Modelled from the spec: `Registry::lookup_name` (from
`src/registry/mod.rs`, not under `src/`) resolves a unique name to its
entity handle and reports an unregistered name as `EntityNotFoundError`. -/
def Registry.lookup_name (r : Registry) (name : String) : Except EntityNotFoundError Nat :=
  match r.names.lookup name with
  | some e => .ok e
  | none => .error ⟨name⟩

/-- Modelled from the spec: `Registry::lookup_class` (from
`src/registry/mod.rs`, not under `src/`) resolves a class tag to the set
of handles carrying it, the empty set when the class is unregistered. -/
def Registry.lookup_class (r : Registry) (cls : String) : List Nat :=
  (r.classes.lookup cls).getD []

/-- Host world model: the optional `Registry` resource plus the set of
live (spawned) entities owned by the host's storage. -/
structure World where
  registry : Option Registry
  spawned : List Nat
deriving DecidableEq

/-- `EntityNamedError` from `src/registry/ext.rs`: either the name is not
registered, or the registered handle is stale (not spawned in the host). -/
inductive EntityNamedError where
  | entityNotFound : EntityNotFoundError → EntityNamedError
  | entityNotSpawned : Nat → EntityNamedError
deriving DecidableEq

/-- `EntityNamedMutError` from `src/registry/ext.rs`, the mutable-lookup
counterpart (its second arm wraps the host's `EntityMutableFetchError`). -/
inductive EntityNamedMutError where
  | entityNotFound : EntityNotFoundError → EntityNamedMutError
  | entityMutableFetch : Nat → EntityNamedMutError
deriving DecidableEq

/-- `World::lookup_name` (`RegistryLookupExt`): delegate to the `Registry`
resource, or report `EntityNotFoundError` when no registry exists. -/
def World.lookup_name (w : World) (name : String) : Except EntityNotFoundError Nat :=
  match w.registry with
  | some r => r.lookup_name name
  | none => .error ⟨name⟩

/-- `World::lookup_class` (`RegistryLookupExt`): delegate to the `Registry`
resource, or the static `EMPTY_SET` when no registry exists. -/
def World.lookup_class (w : World) (cls : String) : List Nat :=
  match w.registry with
  | some r => r.lookup_class cls
  | none => []

/-- Host API `World::get_entity`: `Ok` for a spawned entity, `Err` (the
host's `EntityNotSpawnedError`, modelled by the offending id) otherwise. -/
def World.get_entity (w : World) (e : Nat) : Except Nat Nat :=
  if e ∈ w.spawned then .ok e else .error e

/-- Host API `World::entity`, which panics when the entity is not
spawned; the panic is modelled as `none`. -/
def World.entityRef (w : World) (e : Nat) : Option Nat :=
  if e ∈ w.spawned then some e else none

/-- `World::entity_named`: `lookup_name` then `get_entity`, each failure
propagated with `?` into the matching `EntityNamedError` arm. -/
def World.entity_named (w : World) (name : String) : Except EntityNamedError Nat :=
  match w.lookup_name name with
  | .error err => .error (.entityNotFound err)
  | .ok e =>
    match w.get_entity e with
    | .error e' => .error (.entityNotSpawned e')
    | .ok e' => .ok e'

/-- `World::entity_mut_named` (`RegistryLookupMutExt`): `lookup_name` then
`get_entity_mut`, each failure propagated with `?` into the matching
`EntityNamedMutError` arm (`get_entity_mut` succeeds exactly on spawned
entities, like `get_entity`). -/
def World.entity_mut_named (w : World) (name : String) : Except EntityNamedMutError Nat :=
  match w.lookup_name name with
  | .error err => .error (.entityNotFound err)
  | .ok e =>
    match w.get_entity e with
    | .error e' => .error (.entityMutableFetch e')
    | .ok e' => .ok e'

/-- `World::entity_class` followed by draining `EntityClassIter`: `next`
calls the panicking host accessor `self.world.entity(entity)` on each
handle of the class set, so each yielded item is an entity reference or a
panic (modelled `none`); no error value is ever produced. -/
def World.entity_class_refs (w : World) (cls : String) : List (Option Nat) :=
  (w.lookup_class cls).map (fun e => w.entityRef e)

-- ---------------------------------------------------------------------------
-- Order lemmas for the key comparator

theorem keyLtChars_irrefl : ∀ l : List Char, keyLtChars l l = false := by
  intro l
  induction l with
  | nil => rfl
  | cons a as ih => simp [keyLtChars, ih]

theorem keyLtChars_trans :
    ∀ l₁ l₂ l₃ : List Char, keyLtChars l₁ l₂ = true → keyLtChars l₂ l₃ = true →
      keyLtChars l₁ l₃ = true := by
  intro l₁
  induction l₁ with
  | nil =>
    intro l₂ l₃ h1 h2
    cases l₂ with
    | nil => simp [keyLtChars] at h1
    | cons b bs =>
      cases l₃ with
      | nil => simp [keyLtChars] at h2
      | cons c cs => simp [keyLtChars]
  | cons a as ih =>
    intro l₂ l₃ h1 h2
    cases l₂ with
    | nil => simp [keyLtChars] at h1
    | cons b bs =>
      cases l₃ with
      | nil => simp [keyLtChars] at h2
      | cons c cs =>
        by_cases hab : a < b
        · by_cases hbc : b < c
          · simp [keyLtChars, lt_trans hab hbc]
          · by_cases hcb : c < b
            · simp [keyLtChars, hbc, hcb] at h2
            · have hbc' : b = c := le_antisymm (not_lt.mp hcb) (not_lt.mp hbc)
              subst hbc'
              simp [keyLtChars, hab]
        · by_cases hba : b < a
          · simp [keyLtChars, hab, hba] at h1
          · have hab' : a = b := le_antisymm (not_lt.mp hba) (not_lt.mp hab)
            subst hab'
            have h1' : keyLtChars as bs = true := by
              simpa [keyLtChars, hab] using h1
            by_cases hac : a < c
            · simp [keyLtChars, hac]
            · by_cases hca : c < a
              · simp [keyLtChars, hac, hca] at h2
              · have h2' : keyLtChars bs cs = true := by
                  simpa [keyLtChars, hac, hca] using h2
                simp [keyLtChars, hac, hca, ih bs cs h1' h2']

theorem keyLtChars_total :
    ∀ l₁ l₂ : List Char, keyLtChars l₁ l₂ = true ∨ l₁ = l₂ ∨ keyLtChars l₂ l₁ = true := by
  intro l₁
  induction l₁ with
  | nil =>
    intro l₂
    cases l₂ with
    | nil => exact Or.inr (Or.inl rfl)
    | cons b bs => exact Or.inl rfl
  | cons a as ih =>
    intro l₂
    cases l₂ with
    | nil => exact Or.inr (Or.inr rfl)
    | cons b bs =>
      by_cases hab : a < b
      · exact Or.inl (by simp [keyLtChars, hab])
      · by_cases hba : b < a
        · exact Or.inr (Or.inr (by simp [keyLtChars, hba]))
        · have hab' : a = b := le_antisymm (not_lt.mp hba) (not_lt.mp hab)
          subst hab'
          rcases ih bs with h | h | h
          · exact Or.inl (by simp [keyLtChars, hab, h])
          · exact Or.inr (Or.inl (by rw [h]))
          · exact Or.inr (Or.inr (by simp [keyLtChars, hab, h]))

theorem string_data_inj : ∀ {a b : String}, a.data = b.data → a = b := by
  intro a b h
  cases a
  cases b
  exact congrArg String.mk h

theorem keyLt_irrefl (a : String) : keyLt a a = false :=
  keyLtChars_irrefl a.data

theorem keyLt_trans {a b c : String} (h1 : keyLt a b = true) (h2 : keyLt b c = true) :
    keyLt a c = true :=
  keyLtChars_trans a.data b.data c.data h1 h2

theorem keyLt_total (a b : String) : keyLt a b = true ∨ a = b ∨ keyLt b a = true := by
  rcases keyLtChars_total a.data b.data with h | h | h
  · exact Or.inl h
  · exact Or.inr (Or.inl (string_data_inj h))
  · exact Or.inr (Or.inr h)

theorem keyLtChars_lt :
    ∀ {l₁ l₂ : List Char}, keyLtChars l₁ l₂ = true → List.Lex (fun a b => a < b) l₁ l₂ := by
  intro l₁
  induction l₁ with
  | nil =>
    intro l₂ h
    cases l₂ with
    | nil => simp [keyLtChars] at h
    | cons b bs => exact List.Lex.nil
  | cons a as ih =>
    intro l₂ h
    cases l₂ with
    | nil => simp [keyLtChars] at h
    | cons b bs =>
      by_cases hab : a < b
      · exact List.Lex.rel hab
      · by_cases hba : b < a
        · simp [keyLtChars, hab, hba] at h
        · have hab' : a = b := le_antisymm (not_lt.mp hba) (not_lt.mp hab)
          subst hab'
          have h' : keyLtChars as bs = true := by simpa [keyLtChars, hab] using h
          exact List.Lex.cons (ih h')

/-- The explicit comparator agrees with the library order on strings. -/
theorem keyLt_lt {a b : String} (h : keyLt a b = true) : a < b := by
  rw [String.lt_iff_toList_lt]
  exact keyLtChars_lt h

-- ---------------------------------------------------------------------------
-- Map lemmas for the sorted-association-list model

theorem mem_propsInsert (k : String) (v : Value) :
    ∀ (l : List (String × Value)) (a : String × Value),
      a ∈ propsInsert k v l → a = (k, v) ∨ a ∈ l := by
  intro l
  induction l with
  | nil =>
    intro a h
    simp [propsInsert] at h
    exact Or.inl h
  | cons e rest ih =>
    obtain ⟨k', v'⟩ := e
    intro a h
    by_cases h1 : keyLt k k' = true
    · simp only [propsInsert, h1, if_true, List.mem_cons] at h
      rcases h with h | h | h
      · exact Or.inl h
      · exact Or.inr (by simp [h])
      · exact Or.inr (by simp [h])
    · by_cases h2 : k = k'
      · subst h2
        simp [propsInsert, keyLt_irrefl, List.mem_cons] at h
        rcases h with h | h
        · exact Or.inl (by simp [h])
        · exact Or.inr (List.mem_cons_of_mem _ h)
      · simp [propsInsert, h1, h2] at h
        rcases h with h | h
        · exact Or.inr (by simp [h])
        · rcases ih a h with h' | h'
          · exact Or.inl h'
          · exact Or.inr (by simp [h'])

theorem wf_propsInsert (k : String) (v : Value) :
    ∀ l, List.Pairwise (fun a b => keyLt a.1 b.1 = true) l →
      List.Pairwise (fun a b => keyLt a.1 b.1 = true) (propsInsert k v l) := by
  intro l
  induction l with
  | nil =>
    intro _
    simp [propsInsert]
  | cons e rest ih =>
    obtain ⟨k', v'⟩ := e
    intro hwf
    rw [List.pairwise_cons] at hwf
    obtain ⟨hhead, htail⟩ := hwf
    by_cases h1 : keyLt k k' = true
    · simp only [propsInsert, h1, if_true]
      refine List.Pairwise.cons ?_ (List.Pairwise.cons hhead htail)
      intro a ha
      rcases List.mem_cons.mp ha with rfl | ha'
      · exact h1
      · exact keyLt_trans h1 (hhead a ha')
    · by_cases h2 : k = k'
      · subst h2
        simp only [propsInsert, h1, if_false, if_true]
        exact List.Pairwise.cons hhead htail
      · have h3 : keyLt k' k = true := by
          rcases keyLt_total k k' with h | h | h
          · exact absurd h h1
          · exact absurd h h2
          · exact h
        simp only [propsInsert, h1, h2, if_false]
        refine List.Pairwise.cons ?_ (ih htail)
        intro a ha
        rcases mem_propsInsert k v rest a ha with rfl | ha'
        · exact h3
        · exact hhead a ha'

theorem propsInsert_idem (k : String) (v : Value) :
    ∀ l, propsInsert k v (propsInsert k v l) = propsInsert k v l := by
  intro l
  induction l with
  | nil => simp [propsInsert, keyLt_irrefl]
  | cons e rest ih =>
    obtain ⟨k', v'⟩ := e
    by_cases h1 : keyLt k k' = true
    · simp [propsInsert, h1, keyLt_irrefl]
    · by_cases h2 : k = k'
      · simp [propsInsert, h1, h2, keyLt_irrefl]
      · simp [propsInsert, h1, h2, ih]

theorem propsFind_propsInsert_self (k : String) (v : Value) :
    ∀ l, propsFind k (propsInsert k v l) = some v := by
  intro l
  induction l with
  | nil => simp [propsInsert, propsFind]
  | cons e rest ih =>
    obtain ⟨k', v'⟩ := e
    by_cases h1 : keyLt k k' = true
    · simp [propsInsert, propsFind, h1]
    · by_cases h2 : k = k'
      · subst h2
        simp [propsInsert, propsFind, keyLt_irrefl]
      · simp [propsInsert, propsFind, h1, h2, ih]

-- ---------------------------------------------------------------------------
-- Claim theorems

/-- C3: `Props::get::<T>` returns the stored value converted to `T` when the
entry is present with `T`'s variant, and `T`'s zero value (`false` / `0.0` /
the empty string) when the entry is absent or holds a different variant; it
never fails, and since it takes `&self` it is a pure read of the map; on a
fresh `Props` every typed get of a missing key returns the zero value. -/
theorem c3_get_total_default :
    (∀ (p : Props) (k : String), p.lookup k = none →
      p.getBool k = false ∧ p.getNum k = F32.fin 0 ∧ p.getStr k = "") ∧
    (∀ (p : Props) (k : String) (b : Bool), p.lookup k = some (Value.bool b) →
      p.getBool k = b) ∧
    (∀ (p : Props) (k : String) (n : F32), p.lookup k = some (Value.num n) →
      p.getNum k = n) ∧
    (∀ (p : Props) (k : String) (s : String), p.lookup k = some (Value.str s) →
      p.getStr k = s) ∧
    (∀ (p : Props) (k : String) (v : Value), p.lookup k = some v →
      (v.isBool = false → p.getBool k = false) ∧
      (v.isNum = false → p.getNum k = F32.fin 0) ∧
      (v.isStr = false → p.getStr k = "")) ∧
    (Props.new.getBool "missing" = false ∧ Props.new.getNum "missing" = F32.fin 0 ∧
      Props.new.getStr "missing" = "") := by
  refine ⟨?_, ?_, ?_, ?_, ?_, by decide⟩
  · intro p k h
    simp [Props.getBool, Props.getNum, Props.getStr, h]
  · intro p k b h
    simp [Props.getBool, h, Value.toBool, Value.toBoolOpt]
  · intro p k n h
    simp [Props.getNum, h, Value.toNum, Value.toNumOpt]
  · intro p k s h
    simp [Props.getStr, h, Value.toStr, Value.toStrOpt]
  · intro p k v h
    refine ⟨?_, ?_, ?_⟩ <;> intro hv <;> cases v <;>
      simp_all [Props.getBool, Props.getNum, Props.getStr,
        Value.isBool, Value.isNum, Value.isStr,
        Value.toBool, Value.toBoolOpt, Value.toNum, Value.toNumOpt,
        Value.toStr, Value.toStrOpt]

/-- Witness for C3 at concrete inputs. -/
theorem c3_witness :
    Props.new.getBool "missing" = false ∧
    (Props.new.set "k" (Value.num (F32.fin 2))).getNum "k" = F32.fin 2 ∧
    (Props.new.set "k" (Value.bool true)).getNum "k" = F32.fin 0 :=
  ⟨(c3_get_total_default.1 Props.new "missing" (by decide)).1,
   c3_get_total_default.2.2.1 _ "k" (F32.fin 2) (by decide),
   (c3_get_total_default.2.2.2.2.1 _ "k" (Value.bool true) (by decide)).2.1 (by decide)⟩

/-- C1: for every map and key, `get_mut::<T>` on an absent key inserts the
default `Bool(false)` and coerces it to `T`'s zero value, and on an entry of
a different variant destructively overwrites it in place with `T`'s zero
value before returning the mutable handle; in particular after
`set("p", true)`, a `get_mut::<f32>("p")` leaves the `f32` read at `0.0`
and the subsequent `bool` read at `false`. -/
theorem c1_get_mut_upgrades :
    (∀ (p : Props) (k : String), p.lookup k = none →
      p.get_mut_bool k = p.set k (Value.bool false) ∧
      p.get_mut_num k = p.set k (Value.num (F32.fin 0)) ∧
      p.get_mut_str k = p.set k (Value.str "")) ∧
    (∀ (p : Props) (k : String) (v : Value), p.lookup k = some v →
      (v.isBool = false → p.get_mut_bool k = p.set k (Value.bool false)) ∧
      (v.isNum = false → p.get_mut_num k = p.set k (Value.num (F32.fin 0))) ∧
      (v.isStr = false → p.get_mut_str k = p.set k (Value.str ""))) ∧
    (((Props.new.set "p" (Value.bool true)).get_mut_num "p").getNum "p" = F32.fin 0 ∧
      ((Props.new.set "p" (Value.bool true)).get_mut_num "p").getBool "p" = false) := by
  refine ⟨?_, ?_, by decide⟩
  · intro p k h
    simp [Props.get_mut_bool, Props.get_mut_num, Props.get_mut_str, h, Value.default,
      Value.asMutBool, Value.asMutNum, Value.asMutStr]
  · intro p k v h
    refine ⟨?_, ?_, ?_⟩ <;> intro hv <;> cases v <;>
      simp_all [Props.get_mut_bool, Props.get_mut_num, Props.get_mut_str,
        Value.isBool, Value.isNum, Value.isStr,
        Value.asMutBool, Value.asMutNum, Value.asMutStr]

/-- Witness for C1 at concrete inputs. -/
theorem c1_witness :
    (Props.new.set "p" (Value.bool true)).get_mut_num "p"
        = (Props.new.set "p" (Value.bool true)).set "p" (Value.num (F32.fin 0)) ∧
    Props.new.get_mut_num "missing" = Props.new.set "missing" (Value.num (F32.fin 0)) :=
  ⟨(c1_get_mut_upgrades.2.1 _ "p" (Value.bool true) (by decide)).2.1 (by decide),
   (c1_get_mut_upgrades.1 Props.new "missing" (by decide)).2.1⟩

/-- C2: division is total and always yields a `Num`: a non-numeric divisor
acts as the multiplicative identity, so `v / w` is `v` coerced to `Num`
(hence a non-numeric `v` gives `Num(0.0)`); numeric operands divide as
numbers; and the `number / Value` operator form obeys the same rule. -/
theorem c2_div_coercion :
    (∀ v w : Value, w.isNum = false → v.div w = Value.num v.toNum) ∧
    (∀ v : Value, v.isNum = false → v.toNum = F32.fin 0) ∧
    (∀ a b : F32, (Value.num a).div (Value.num b) = Value.num (F32.div a b)) ∧
    (∀ (x : F32) (w : Value), w.isNum = false → F32.divValue x w = Value.num x) ∧
    (∀ v w : Value, (v.div w).isNum = true) := by
  refine ⟨?_, ?_, ?_, ?_, ?_⟩
  · intro v w hw
    cases v <;> cases w <;>
      simp_all [Value.div, Value.isNum, Value.toNum, Value.toNumOpt]
  · intro v hv
    cases v <;> simp_all [Value.isNum, Value.toNum, Value.toNumOpt]
  · intro a b
    rfl
  · intro x w hw
    cases w <;> simp_all [F32.divValue, Value.isNum]
  · intro v w
    cases v <;> cases w <;> simp [Value.div, Value.isNum]

/-- Witness for C2 at concrete inputs. -/
theorem c2_witness :
    (Value.num (F32.fin 5)).div (Value.str "s") = Value.num ((Value.num (F32.fin 5)).toNum) ∧
    F32.divValue (F32.fin 5) (Value.bool true) = Value.num (F32.fin 5) :=
  ⟨c2_div_coercion.1 (Value.num (F32.fin 5)) (Value.str "s") (by decide),
   c2_div_coercion.2.2.2.1 (F32.fin 5) (Value.bool true) (by decide)⟩

/-- C4: with a non-numeric operand on either side, addition returns the
other operand's numeric coercion and multiplication returns `Num(0.0)`;
both operators always yield a `Num` variant. -/
theorem c4_add_mul_zero_coercion :
    (∀ v w : Value, w.isNum = false →
      v.add w = Value.num v.toNum ∧ v.mul w = Value.num (F32.fin 0)) ∧
    (∀ v w : Value, v.isNum = false →
      v.add w = Value.num w.toNum ∧ v.mul w = Value.num (F32.fin 0)) ∧
    (∀ v w : Value, (v.add w).isNum = true ∧ (v.mul w).isNum = true) := by
  refine ⟨?_, ?_, ?_⟩
  · intro v w hw
    cases v <;> cases w <;>
      simp_all [Value.add, Value.mul, Value.isNum, Value.toNum, Value.toNumOpt]
  · intro v w hv
    cases v <;> cases w <;>
      simp_all [Value.add, Value.mul, Value.isNum, Value.toNum, Value.toNumOpt]
  · intro v w
    cases v <;> cases w <;> simp [Value.add, Value.mul, Value.isNum]

/-- Witness for C4 at concrete inputs. -/
theorem c4_witness :
    (Value.num (F32.fin 7)).add (Value.str "s") = Value.num ((Value.num (F32.fin 7)).toNum) ∧
    (Value.num (F32.fin 7)).mul (Value.str "s") = Value.num (F32.fin 0) :=
  c4_add_mul_zero_coercion.1 (Value.num (F32.fin 7)) (Value.str "s") (by decide)

/-- C5: `Num(NaN)` equals nothing, itself included, so `Value` equality is
not reflexive at NaN; cross-variant comparisons are always "not equal" and
the comparison function is total (never an error). -/
theorem c5_nan_equality :
    Value.beq (Value.num F32.nan) (Value.num F32.nan) = false ∧
    (∀ v : Value,
      Value.beq (Value.num F32.nan) v = false ∧ Value.beq v (Value.num F32.nan) = false) ∧
    (∀ x : F32, Value.beqNum (Value.num F32.nan) x = false) ∧
    (∀ v w : Value, v.tag ≠ w.tag → Value.beq v w = false) := by
  refine ⟨by decide, ?_, ?_, ?_⟩
  · intro v
    cases v <;> simp [Value.beq, F32.beq]
  · intro x
    cases x <;> simp [Value.beqNum, F32.beq]
  · intro v w h
    cases v <;> cases w <;> simp_all [Value.tag, Value.beq]

/-- Witness for C5 at concrete inputs. -/
theorem c5_witness :
    Value.beq (Value.bool true) (Value.num (F32.fin 1)) = false :=
  c5_nan_equality.2.2.2 (Value.bool true) (Value.num (F32.fin 1)) (by decide)

/-- C6: on a fresh `Props`, `p["n"] += 5.0` inserts the default
`Bool(false)` for the missing key and `Bool(false) + 5.0` yields
`Num(5.0)`; the subsequent `p["n"] -= 2.0` yields `Num(3.0)`, so
`p.get::<f32>("n") == 3.0`. -/
theorem c6_indexed_arithmetic_scenario :
    Props.new.addAssignF32 "n" (F32.fin 5) = Props.mk [("n", Value.num (F32.fin 5))] ∧
    Value.addF32 Value.default (F32.fin 5) = Value.num (F32.fin 5) ∧
    ((Props.new.addAssignF32 "n" (F32.fin 5)).subAssignF32 "n" (F32.fin 2)).getNum "n"
      = F32.fin 3 := by
  refine ⟨by decide, by decide, by decide⟩

/-- C7: the scenario map iterates as exactly its three entries in key
order, and in general every map reachable through the API is sorted: the
empty map is sorted, `set`/`with` preserve sortedness, and a sorted map's
borrowing iterator yields entries whose names are strictly ascending in
the string order (so iteration order is deterministic between mutations,
`iter` being a pure function of the map). -/
theorem c7_iter_sorted :
    (((Props.new.withProp "a" (Value.bool true)).withProp "b"
        (Value.num (F32.fin 1))).withProp "c" (Value.str "x")).iter
      = [("a", Value.bool true), ("b", Value.num (F32.fin 1)), ("c", Value.str "x")] ∧
    Props.Wf Props.new ∧
    (∀ (p : Props) (k : String) (v : Value), p.Wf → (p.set k v).Wf) ∧
    (∀ (p : Props) (k : String) (v : Value), p.Wf → (p.withProp k v).Wf) ∧
    (∀ p : Props, p.Wf → List.Pairwise (fun a b => a.1 < b.1) p.iter) := by
  refine ⟨by decide, by decide, ?_, ?_, ?_⟩
  · intro p k v h
    exact wf_propsInsert k v p.properties h
  · intro p k v h
    exact wf_propsInsert k v p.properties h
  · intro p h
    exact h.imp (fun hab => keyLt_lt hab)

/-- Witness for C7 at concrete inputs. -/
theorem c7_witness :
    Props.Wf ((Props.new.set "b" (Value.num (F32.fin 1))).set "a" (Value.bool true)) ∧
    List.Pairwise (fun (a b : String × Value) => a.1 < b.1)
      (Props.mk [("a", Value.bool true), ("b", Value.num (F32.fin 1))]).iter :=
  ⟨c7_iter_sorted.2.2.1 (Props.new.set "b" (Value.num (F32.fin 1))) "a"
      (Value.bool true) (by decide),
   c7_iter_sorted.2.2.2.2 (Props.mk [("a", Value.bool true), ("b", Value.num (F32.fin 1))])
      (by decide)⟩

/-- C8: `set` is idempotent — setting the same key to the same value twice
produces exactly the map a single `set` produces — and the value read back
at that key is the value written. -/
theorem c8_set_idempotent :
    ∀ (p : Props) (k : String) (x : Value),
      (p.set k x).set k x = p.set k x ∧ (p.set k x).lookup k = some x := by
  intro p k x
  constructor
  · exact congrArg Props.mk (propsInsert_idem k x p.properties)
  · exact propsFind_propsInsert_self k x p.properties

/-- C9 (as amended): name-based lookups report failures as exactly the two
typed error kinds — `entity_named` and `entity_mut_named` return the
"name not registered" error when `lookup_name` fails, the "stale handle"
error when the registered handle is not spawned, and `Ok` otherwise —
while class-based lookups do not follow that discipline: an unregistered
class (or absent registry) silently yields the empty set, and a stale
handle in a class set makes the iterator hit the host's panicking
accessor (modelled `none`) instead of returning a typed error. -/
theorem c9_amended_lookup_discipline :
    (∀ (w : World) (name : String) (err : EntityNotFoundError),
        w.lookup_name name = .error err →
          w.entity_named name = .error (.entityNotFound err) ∧
          w.entity_mut_named name = .error (.entityNotFound err)) ∧
    (∀ (w : World) (name : String) (e : Nat),
        w.lookup_name name = .ok e → e ∉ w.spawned →
          w.entity_named name = .error (.entityNotSpawned e) ∧
          w.entity_mut_named name = .error (.entityMutableFetch e)) ∧
    (∀ (w : World) (name : String) (e : Nat),
        w.lookup_name name = .ok e → e ∈ w.spawned →
          w.entity_named name = .ok e ∧ w.entity_mut_named name = .ok e) ∧
    (∀ (w : World) (cls : String), w.registry = none → w.lookup_class cls = []) ∧
    (∀ (w : World) (cls : String) (e : Nat),
        e ∈ w.lookup_class cls → e ∉ w.spawned →
          none ∈ w.entity_class_refs cls) := by
  refine ⟨?_, ?_, ?_, ?_, ?_⟩
  · intro w name err h
    simp [World.entity_named, World.entity_mut_named, h]
  · intro w name e h hc
    simp [World.entity_named, World.entity_mut_named, World.get_entity, h, hc]
  · intro w name e h hc
    simp [World.entity_named, World.entity_mut_named, World.get_entity, h, hc]
  · intro w cls h
    simp [World.lookup_class, h]
  · intro w cls e he hc
    refine List.mem_map.mpr ⟨e, he, ?_⟩
    simp [World.entityRef, hc]

/-- Witness for C9's amended theorem at concrete inputs. -/
theorem c9_witness :
    (World.mk (some (Registry.mk [("gandalf", 3)] [])) [3]).entity_named "gandalf" = .ok 3 ∧
    (World.mk (some (Registry.mk [("gandalf", 3)] [])) []).entity_named "gandalf"
        = .error (.entityNotSpawned 3) ∧
    (World.mk none []).entity_named "bilbo" = .error (.entityNotFound ⟨"bilbo"⟩) ∧
    none ∈ (World.mk (some (Registry.mk [] [("c", [5])])) []).entity_class_refs "c" :=
  ⟨(c9_amended_lookup_discipline.2.2.1 (World.mk (some (Registry.mk [("gandalf", 3)] [])) [3])
      "gandalf" 3 rfl (by decide)).1,
   (c9_amended_lookup_discipline.2.1 (World.mk (some (Registry.mk [("gandalf", 3)] [])) [])
      "gandalf" 3 rfl (by decide)).1,
   (c9_amended_lookup_discipline.1 (World.mk none []) "bilbo" ⟨"bilbo"⟩ rfl).1,
   c9_amended_lookup_discipline.2.2.2.2 (World.mk (some (Registry.mk [] [("c", [5])])) [])
      "c" 5 (by decide) (by decide)⟩

/-- C9 counterexample: in a world whose registry maps class "c" to the
stale handle 5 (spawned set empty), draining the class iterator produces a
host panic (modelled `none`) for that handle — the failure is not
propagated as either typed error kind, refuting the claim that the
typed-failure discipline applies to class-based lookups. -/
theorem c9_counterexample :
    World.entity_class_refs (World.mk (some (Registry.mk [] [("c", [5])])) []) "c"
      = [none] := by
  decide

/-- C10: the read-only index of a missing key returns the shared default
`Bool(false)` (taking `&self`, it inserts nothing); consequently the
indexed value compares equal to `false` but not equal to `0.0` or `""`,
even though the typed `f32` and string reads of the same key return `0.0`
and the empty string. -/
theorem c10_index_read_default :
    ∀ (p : Props) (k : String), p.lookup k = none →
      p.index k = Value.bool false ∧
      Value.beqBool (p.index k) false = true ∧
      Value.beqNum (p.index k) (F32.fin 0) = false ∧
      Value.beqStr (p.index k) "" = false ∧
      p.getNum k = F32.fin 0 ∧
      p.getStr k = "" := by
  intro p k h
  simp [Props.index, Props.getNum, Props.getStr, h, Value.default,
    Value.beqBool, Value.beqNum, Value.beqStr]

/-- Witness for C10 at a concrete input. -/
theorem c10_witness :
    Props.new.index "missing" = Value.bool false ∧
    Value.beqBool (Props.new.index "missing") false = true ∧
    Value.beqNum (Props.new.index "missing") (F32.fin 0) = false ∧
    Value.beqStr (Props.new.index "missing") "" = false ∧
    Props.new.getNum "missing" = F32.fin 0 ∧
    Props.new.getStr "missing" = "" :=
  c10_index_read_default Props.new "missing" (by decide)
